import Mathlib

/-!
# webrtc_client: orchestration layer

A shallow embedding of `src/VideoConferenceApp.js`, `src/UIManager.js` and the
mute-button listener of `src/script.js`.

* The browser document is reduced to what the code touches: the children of
  the `#participantList` element and the `#localVideo` element.
* The collaborators whose code is elsewhere (`WebRTCManager`,
  `WebSocketManager`, `PeerConnectionManager`) are a parameter `Env`: every
  call made on them is appended to a trace, and `Env` decides whether the call
  throws.
* JavaScript exceptions are explicit: an `Outcome` is the world reached
  together with the exception in flight, if any. `await` is sequencing.
* A JavaScript string is a Lean `String`, one character per code unit.
-/

namespace WebrtcClient

/-! ## Values -/

/-- The JavaScript values that a signaling message field can hold. -/
inductive JsVal where
  | str (s : String)
  | num (n : Int)
  | null
  | undefined
  | obj (name : String)
  deriving DecidableEq, Repr

/-- String conversion as performed by a template literal. -/
def JsVal.toStr : JsVal → String
  | .str s => s
  | .num n => toString n
  | .null => "null"
  | .undefined => "undefined"
  | .obj _ => "[object Object]"

/-- A thrown JavaScript value. -/
inductive JsError where
  | typeError (what : String)
  | other (tag : String)
  deriving DecidableEq, Repr

/-- An inbound signaling message: the dispatch key and the fields the handlers
read. A field that is missing reads as `undefined`; `userIds` is `none` when
the field is not an array. -/
structure Message where
  type : String
  userId : JsVal := .undefined
  userIds : Option (List JsVal) := none
  fromUserId : JsVal := .undefined
  offer : JsVal := .undefined
  answer : JsVal := .undefined
  candidate : JsVal := .undefined
  deriving DecidableEq, Repr

/-! ## Effects and world -/

/-- The calls the code makes, in the order it makes them. -/
inductive Effect where
  | consoleLog (text : String)
  | consoleError (text : String)
  | alert (text : String)
  | uiAddParticipantToList (userId : JsVal) (isLocal : Bool)
  | uiRemoveParticipantFromList (userId : JsVal)
  | rtcSetMyUserId (userId : JsVal)
  | rtcHandleUserJoined (userId : JsVal)
  | rtcHandleUserLeft (userId : JsVal)
  | rtcHandleOffer (fromUserId offer : JsVal)
  | rtcHandleAnswer (fromUserId answer : JsVal)
  | rtcHandleIceCandidate (fromUserId candidate : JsVal)
  | peerSetRtcManager
  | peerSetupLocalStream
  | wsOnMessage (type : String)
  | wsConnect
  deriving DecidableEq, Repr

/-- A call on the WebRTC manager. -/
def Effect.isRtc : Effect → Bool
  | .rtcSetMyUserId _ => true
  | .rtcHandleUserJoined _ => true
  | .rtcHandleUserLeft _ => true
  | .rtcHandleOffer _ _ => true
  | .rtcHandleAnswer _ _ => true
  | .rtcHandleIceCandidate _ _ => true
  | _ => false

/-- A call on the participant list of `UIManager`. -/
def Effect.isUi : Effect → Bool
  | .uiAddParticipantToList _ _ => true
  | .uiRemoveParticipantFromList _ => true
  | _ => false

/-- Console output. -/
def Effect.isConsole : Effect → Bool
  | .consoleLog _ => true
  | .consoleError _ => true
  | _ => false

/-- An `li` element of the participant list. -/
structure Li where
  id : String
  textContent : String
  deriving DecidableEq, Repr

/-- The `#localVideo` element. -/
structure VideoElement where
  srcObject : JsVal
  deriving DecidableEq, Repr

/-- The state the code acts on. -/
structure World where
  /-- Children of `#participantList`, in document order. -/
  participantList : List Li
  /-- The element handed to the constructor; `none` when the lookup gave null. -/
  localVideoElement : Option VideoElement
  /-- Every call made so far, oldest first. -/
  trace : List Effect
  deriving DecidableEq, Repr

/-- Behaviour of the collaborators outside `src/`. -/
structure Env where
  /-- The exception a call throws, given the calls made before it. -/
  throws : List Effect → Effect → Option JsError
  /-- What `await peerManager.setupLocalStream()` yields: the stream, or the
  rejection (or exception) of the call. -/
  setupLocalStream : Except JsError JsVal

/-- The world reached and the exception in flight. -/
structure Outcome where
  world : World
  thrown : Option JsError
  deriving DecidableEq, Repr

/-- Normal completion. -/
def Outcome.ok (w : World) : Outcome := { world := w, thrown := none }

/-- Statement sequencing: the continuation runs only after normal completion. -/
def Outcome.andThen (o : Outcome) (k : World → Outcome) : Outcome :=
  match o.thrown with
  | none => k o.world
  | some _ => o

/-- Append a call to the trace. -/
def World.record (w : World) (e : Effect) : World :=
  { w with trace := w.trace ++ [e] }

/-- A call that cannot throw (console, alert). -/
def emit (e : Effect) (w : World) : Outcome := Outcome.ok (w.record e)

/-- A call on a collaborator outside `src/`. -/
def callOut (env : Env) (e : Effect) (w : World) : Outcome :=
  { world := w.record e, thrown := env.throws w.trace e }

/-! ## UIManager.js -/

/-- The id given to the entry of `userId`. -/
def participantId (userId : JsVal) : String := "participant-" ++ userId.toStr

/-- The value of `userId.substring(0, 8)`; only strings have the method. -/
def shortId : JsVal → Except JsError String
  | .str s => .ok (String.mk (s.data.take 8))
  | _ => .error (.typeError "userId.substring is not a function")

/-- The text of an entry. -/
def participantLabel (isLocal : Bool) (short : String) : String :=
  if isLocal then "Tú (" ++ short ++ "...)" else "Usuario (" ++ short ++ "...)"

/-- Removal of the first element with the given id, as
`document.getElementById(id).remove()` does; the elements of the page whose id
starts with `participant-` are the children of `#participantList`. -/
def removeFirstById (id : String) : List Li → List Li
  | [] => []
  | li :: rest => if li.id = id then rest else li :: removeFirstById id rest

/-- The function `UIManager.addParticipantToList`. -/
def UIManager.addParticipantToList (userId : JsVal) (isLocal : Bool) (w : World) : Outcome :=
  let w := w.record (.uiAddParticipantToList userId isLocal)
  match shortId userId with
  | .error e => { world := w, thrown := some e }
  | .ok short =>
    let li : Li := { id := participantId userId, textContent := participantLabel isLocal short }
    Outcome.ok { w with participantList := w.participantList ++ [li] }

/-- The function `UIManager.removeParticipantFromList`. -/
def UIManager.removeParticipantFromList (userId : JsVal) (w : World) : Outcome :=
  let w := w.record (.uiRemoveParticipantFromList userId)
  Outcome.ok { w with participantList := removeFirstById (participantId userId) w.participantList }

/-! ## VideoConferenceApp.js -/

/-- The method `Array.prototype.forEach`. -/
def forEach (f : JsVal → World → Outcome) : List JsVal → World → Outcome
  | [], w => Outcome.ok w
  | x :: rest, w => (f x w).andThen (forEach f rest)

/-- A message handler. -/
abbrev Handler := Env → Message → World → Outcome

/-- Handler of `assign-id`. -/
def onAssignId (env : Env) (message : Message) (w : World) : Outcome :=
  (emit (.consoleLog "Evento recibido: assign-id") w).andThen fun w =>
  (callOut env (.rtcSetMyUserId message.userId) w).andThen fun w =>
  (emit (.consoleLog ("ID de usuario asignado: " ++ message.userId.toStr)) w).andThen fun w =>
  UIManager.addParticipantToList message.userId true w

/-- Handler of `user-joined`. -/
def onUserJoined (env : Env) (message : Message) (w : World) : Outcome :=
  (emit (.consoleLog "Procesando evento: user-joined") w).andThen fun w =>
  (UIManager.addParticipantToList message.userId false w).andThen fun w =>
  callOut env (.rtcHandleUserJoined message.userId) w

/-- Body of the `forEach` callback of `existing-users`. -/
def existingUsersStep (env : Env) (userId : JsVal) (w : World) : Outcome :=
  (UIManager.addParticipantToList userId false w).andThen fun w =>
  callOut env (.rtcHandleUserJoined userId) w

/-- Handler of `existing-users`. -/
def onExistingUsers (env : Env) (message : Message) (w : World) : Outcome :=
  (emit (.consoleLog "Procesando evento: existing-users") w).andThen fun w =>
  match message.userIds with
  | none => { world := w, thrown := some (.typeError "message.userIds.forEach is not a function") }
  | some userIds => forEach (existingUsersStep env) userIds w

/-- Handler of `user-left`. -/
def onUserLeft (env : Env) (message : Message) (w : World) : Outcome :=
  (emit (.consoleLog "Procesando evento: user-left") w).andThen fun w =>
  (UIManager.removeParticipantFromList message.userId w).andThen fun w =>
  callOut env (.rtcHandleUserLeft message.userId) w

/-- Handler of `offer`. -/
def onOffer (env : Env) (message : Message) (w : World) : Outcome :=
  (emit (.consoleLog "Procesando evento: offer (oferta)") w).andThen fun w =>
  callOut env (.rtcHandleOffer message.fromUserId message.offer) w

/-- Handler of `answer`. -/
def onAnswer (env : Env) (message : Message) (w : World) : Outcome :=
  (emit (.consoleLog "Procesando evento: answer (respuesta)") w).andThen fun w =>
  callOut env (.rtcHandleAnswer message.fromUserId message.answer) w

/-- Handler of `ice-candidate`. -/
def onIceCandidate (env : Env) (message : Message) (w : World) : Outcome :=
  (emit (.consoleLog "Procesando evento: ice-candidate (candidato ICE)") w).andThen fun w =>
  callOut env (.rtcHandleIceCandidate message.fromUserId message.candidate) w

/-- The arguments of the `wsManager.onMessage` calls of
`registerWebSocketHandlers`, in source order. -/
def handlerTable : List (String × Handler) :=
  [ ("assign-id", onAssignId),
    ("user-joined", onUserJoined),
    ("existing-users", onExistingUsers),
    ("user-left", onUserLeft),
    ("offer", onOffer),
    ("answer", onAnswer),
    ("ice-candidate", onIceCandidate) ]

/-- One `wsManager.onMessage` call after another, stopping at a throw. -/
def registerAll (env : Env) : List (String × Handler) → World → Outcome
  | [], w => Outcome.ok w
  | (t, _) :: rest, w => (callOut env (.wsOnMessage t) w).andThen (registerAll env rest)

/-- The method `VideoConferenceApp.registerWebSocketHandlers`. -/
def registerWebSocketHandlers (env : Env) (w : World) : Outcome :=
  registerAll env handlerTable w

/-- The `catch` block of `setupLocalMedia`. -/
def setupLocalMediaCatch (error : JsError) (w : World) : Outcome :=
  (emit (.consoleError "Error al configurar el stream local:") w).andThen fun w =>
  (emit (.alert "No se pudo acceder a la cámara y al micrófono. Por favor, verifica los permisos y refresca la página.") w).andThen fun w =>
  { world := w, thrown := some error }

/-- The method `VideoConferenceApp.setupLocalMedia`. -/
def setupLocalMedia (env : Env) (w : World) : Outcome :=
  let w := w.record .peerSetupLocalStream
  match env.setupLocalStream with
  | .error e => setupLocalMediaCatch e w
  | .ok stream =>
    match w.localVideoElement with
    | none =>
      setupLocalMediaCatch (.typeError "Cannot set properties of null (setting srcObject)") w
    | some _ =>
      emit (.consoleLog "Stream local obtenido y listo.")
        { w with localVideoElement := some { srcObject := stream } }

/-- The method `VideoConferenceApp.start`. -/
def start (env : Env) (w : World) : Outcome :=
  (callOut env .peerSetRtcManager w).andThen fun w =>
  (setupLocalMedia env w).andThen fun w =>
  (registerWebSocketHandlers env w).andThen fun w =>
  callOut env .wsConnect w

/-! ## Delivery of inbound messages -/

/-- The signaling message shapes of the relay-server protocol. -/
def Message.assignId (userId : JsVal) : Message := { type := "assign-id", userId := userId }

/-- Shape of `user-joined`. -/
def Message.userJoined (userId : JsVal) : Message := { type := "user-joined", userId := userId }

/-- Shape of `existing-users`. -/
def Message.existingUsers (userIds : List JsVal) : Message :=
  { type := "existing-users", userIds := some userIds }

/-- Shape of `user-left`. -/
def Message.userLeft (userId : JsVal) : Message := { type := "user-left", userId := userId }

/-- Shape of `offer`. -/
def Message.mkOffer (fromUserId offer : JsVal) : Message :=
  { type := "offer", fromUserId := fromUserId, offer := offer }

/-- Shape of `answer`. -/
def Message.mkAnswer (fromUserId answer : JsVal) : Message :=
  { type := "answer", fromUserId := fromUserId, answer := answer }

/-- Shape of `ice-candidate`. -/
def Message.iceCandidate (fromUserId candidate : JsVal) : Message :=
  { type := "ice-candidate", fromUserId := fromUserId, candidate := candidate }

/-- The handler registered for a type; the table holds each type once. -/
def lookupHandler (t : String) : List (String × Handler) → Option Handler
  | [] => none
  | (key, h) :: rest => if key = t then some h else lookupHandler t rest

/-- Modelled from the spec: `WebSocketManager` is not in `src/`; an inbound
message is dispatched on its `type` to the handler registered for it, and a
message of an unregistered type is dropped. -/
def deliver (env : Env) (message : Message) (w : World) : Outcome :=
  match lookupHandler message.type handlerTable with
  | some h => h env message w
  | none => Outcome.ok w

/-- Modelled from the spec: each inbound message is a separate event, so an
exception that escapes one handler does not stop the delivery of the next
message. -/
def deliverAll (env : Env) (messages : List Message) (w : World) : World :=
  messages.foldl (fun w message => (deliver env message w).world) w

/-- The calls made by a run that started in `w`. -/
def performed (w : World) (o : Outcome) : List Effect :=
  o.world.trace.drop w.trace.length

/-- The WebRTC-manager calls among some calls. -/
def rtcCalls (es : List Effect) : List Effect := es.filter Effect.isRtc

/-- The participant-list calls among some calls. -/
def uiCalls (es : List Effect) : List Effect := es.filter Effect.isUi

/-- Everything but console output. -/
def domainEffects (es : List Effect) : List Effect := es.filter fun e => !e.isConsole

/-- An environment in which no call throws and the camera is granted. -/
def Env.benign : Env :=
  { throws := fun _ _ => none, setupLocalStream := .ok (.obj "MediaStream") }

/-- The page before anything ran. -/
def World.initial : World :=
  { participantList := [], localVideoElement := some { srcObject := .null }, trace := [] }

/-! ## script.js: the mute button -/

/-- Kind of a media track. -/
inductive TrackKind where
  | audio
  | video
  deriving DecidableEq, Repr

/-- A track of the local stream. -/
structure Track where
  kind : TrackKind
  enabled : Bool
  deriving DecidableEq, Repr

/-- What the click listener reads and writes. -/
structure ScriptState where
  isMuted : Bool
  /-- Value of `muteButton.textContent`. -/
  buttonText : String
  /-- Value of `app.peerManager.localStream`; `none` when it is null or undefined. -/
  localStream : Option (List Track)
  deriving DecidableEq, Repr

/-- Label shown while muted. -/
def unmuteLabel : String := "Quitar Silencio 🔈"

/-- Label shown while not muted. -/
def muteLabel : String := "Silenciar 🔇"

/-- The assignment `track.enabled = !isMuted` on every audio track. -/
def setAudioEnabled (isMuted : Bool) (tracks : List Track) : List Track :=
  tracks.map fun track => if track.kind = .audio then { track with enabled := !isMuted } else track

/-- The click listener of the mute button. -/
def onMuteClick (s : ScriptState) : ScriptState :=
  match s.localStream with
  | none => s
  | some localStream =>
    let isMuted := !s.isMuted
    { isMuted := isMuted,
      localStream := some (setAudioEnabled isMuted localStream),
      buttonText := if isMuted then unmuteLabel else muteLabel }

/-- A sequence of clicks. -/
def clicks : Nat → ScriptState → ScriptState
  | 0, s => s
  | n + 1, s => clicks n (onMuteClick s)

/-! ## Vocabulary of the statements -/

/-- The entry that `addParticipantToList` builds for a string identity. -/
def entryOf (u : String) (isLocal : Bool) : Li :=
  { id := participantId (.str u),
    textContent := participantLabel isLocal (String.mk (u.data.take 8)) }

/-- The two calls made for one newly known remote identity. -/
def joinEffects (u : String) : List Effect :=
  [.uiAddParticipantToList (.str u) false, .rtcHandleUserJoined (.str u)]

/-- An entry carrying the label of the local participant. -/
def Li.isLocalEntry (li : Li) : Bool := "Tú (".data.isPrefixOf li.textContent.data

/-- Number of local entries in a participant list. -/
def localEntries (l : List Li) : Nat := l.countP Li.isLocalEntry

/-- A membership event about a remote identity. -/
inductive Membership where
  | joined (u : String)
  | left (u : String)
  deriving DecidableEq, Repr

/-- The message that announces a membership event. -/
def Membership.toMessage : Membership → Message
  | .joined u => .userJoined (.str u)
  | .left u => .userLeft (.str u)

/-- One step of the count of open joins of `u`: a `user-joined {u}` opens one,
a `user-left {u}` closes one that is open. -/
def joinStep (u : String) (n : Nat) : Membership → Nat
  | .joined v => if v = u then n + 1 else n
  | .left v => if v = u then n - 1 else n

/-- The number of `user-joined {u}` events not matched by a later
`user-left {u}`. -/
def openJoins (u : String) (events : List Membership) : Nat :=
  events.foldl (joinStep u) 0

/-- One step of the roster: a join goes to the end, a leave takes the
identity out. -/
def rosterStep (r : List String) : Membership → List String
  | .joined v => r ++ [v]
  | .left v => r.erase v

/-- The currently joined identities, in join order. -/
def roster (events : List Membership) : List String :=
  events.foldl rosterStep []

/-- No identity is joined while it is already joined. -/
def NoRejoin (events : List Membership) : Prop :=
  ∀ before v after, events = before ++ .joined v :: after → openJoins v before = 0

/-- The seven `wsManager.onMessage` calls, in source order. -/
def registrations : List Effect :=
  [.wsOnMessage "assign-id", .wsOnMessage "user-joined", .wsOnMessage "existing-users",
   .wsOnMessage "user-left", .wsOnMessage "offer", .wsOnMessage "answer",
   .wsOnMessage "ice-candidate"]

/-- An environment in which `handleUserJoined(u)` throws and nothing else does. -/
def Env.failingOn (u : String) : Env :=
  { throws := fun _ e =>
      if e = .rtcHandleUserJoined (.str u) then some (.other "handleUserJoined failed") else none,
    setupLocalStream := .ok (.obj "MediaStream") }

/-- The calls made for an element of `userIds` whose handling fails: a string
is added and passed on, anything else fails inside `addParticipantToList`. -/
def attempted : JsVal → List Effect
  | .str s => joinEffects s
  | x => [.uiAddParticipantToList x false]

/-- The entry, if any, that the handling of an element leaves in the list. -/
def addedBy : JsVal → List Li
  | .str s => [entryOf s false]
  | _ => []

/-- The calls of a `start` that runs to the end. -/
def startScript : List Effect :=
  [.peerSetRtcManager, .peerSetupLocalStream, .consoleLog "Stream local obtenido y listo."]
    ++ registrations ++ [.wsConnect]

/-- An environment in which the camera is refused with `e`. -/
def Env.refusing (e : JsError) : Env :=
  { throws := fun _ _ => none, setupLocalStream := .error e }

/-- The label that the listener gives the button for a value of `isMuted`. -/
def labelFor (isMuted : Bool) : String := if isMuted then unmuteLabel else muteLabel

/-- The state after at least one effective click: the button shows the label
of `isMuted` and every audio track has `enabled = !isMuted`. -/
def MuteInvariant (s : ScriptState) : Prop :=
  s.buttonText = labelFor s.isMuted
  ∧ ∀ tracks, s.localStream = some tracks →
      ∀ t ∈ tracks, t.kind = .audio → t.enabled = !s.isMuted

/-- A state with one audio and one video track, both enabled. -/
def ScriptState.sample : ScriptState :=
  { isMuted := false, buttonText := "Silenciar",
    localStream := some [{ kind := .audio, enabled := true }, { kind := .video, enabled := true }] }

/-! ## Basic facts -/

theorem andThen_ok (w : World) (k : World → Outcome) : (Outcome.ok w).andThen k = k w := rfl

theorem andThen_emit (e : Effect) (w : World) (k : World → Outcome) :
    (emit e w).andThen k = k (w.record e) := rfl

theorem addParticipantToList_str (u : String) (b : Bool) (w : World) :
    UIManager.addParticipantToList (.str u) b w
      = Outcome.ok { participantList := w.participantList ++ [entryOf u b],
                     localVideoElement := w.localVideoElement,
                     trace := w.trace ++ [.uiAddParticipantToList (.str u) b] } := rfl

theorem existingUsersStep_str (env : Env) (u : String) (w : World) :
    existingUsersStep env (.str u) w
      = { world := { participantList := w.participantList ++ [entryOf u false],
                     localVideoElement := w.localVideoElement,
                     trace := w.trace ++ joinEffects u },
          thrown := env.throws (w.trace ++ [.uiAddParticipantToList (.str u) false])
                      (.rtcHandleUserJoined (.str u)) } := by
  simp [existingUsersStep, addParticipantToList_str, andThen_ok, callOut, World.record,
    joinEffects]

theorem forEach_str (env : Env) (L : List String)
    (hok : ∀ tr u, u ∈ L → env.throws tr (.rtcHandleUserJoined (.str u)) = none) (w : World) :
    forEach (existingUsersStep env) (L.map .str) w
      = Outcome.ok { participantList := w.participantList ++ L.map (entryOf · false),
                     localVideoElement := w.localVideoElement,
                     trace := w.trace ++ L.flatMap joinEffects } := by
  induction L generalizing w with
  | nil => simp [forEach]
  | cons u L ih =>
    have hu := hok (w.trace ++ [.uiAddParticipantToList (.str u) false]) u (by simp)
    simp only [List.map_cons, forEach, existingUsersStep_str, hu]
    rw [show ∀ x : World, (Outcome.mk x none) = Outcome.ok x from fun _ => rfl, andThen_ok,
      ih (fun tr v hv => hok tr v (by simp [hv]))]
    simp [List.flatMap]

theorem forEach_append_failing (f : JsVal → World → Outcome) (pre post : List JsVal)
    (x : JsVal) (w : World) (e : JsError)
    (hpre : (forEach f pre w).thrown = none)
    (hx : (f x (forEach f pre w).world).thrown = some e) :
    forEach f (pre ++ x :: post) w = f x (forEach f pre w).world := by
  induction pre generalizing w with
  | nil => simp [forEach, Outcome.andThen, hx, Outcome.ok] at hx ⊢
  | cons a pre ih =>
    simp only [List.cons_append, forEach, Outcome.andThen] at hpre hx ⊢
    cases ha : (f a w).thrown with
    | none => simp only [ha] at hpre hx ⊢; exact ih _ hpre hx
    | some e0 => simp [ha] at hpre

theorem deliver_userJoined_world (env : Env) (u : String) (w : World) :
    (deliver env (.userJoined (.str u)) w).world
      = { participantList := w.participantList ++ [entryOf u false],
          localVideoElement := w.localVideoElement,
          trace := w.trace ++ .consoleLog "Procesando evento: user-joined" :: joinEffects u } := by
  simp [deliver, lookupHandler, handlerTable, Message.userJoined, onUserJoined, andThen_emit,
    addParticipantToList_str, andThen_ok, callOut, World.record, joinEffects]

theorem deliver_userLeft_world (env : Env) (x : JsVal) (w : World) :
    (deliver env (.userLeft x) w).world
      = { participantList := removeFirstById (participantId x) w.participantList,
          localVideoElement := w.localVideoElement,
          trace := w.trace ++ [.consoleLog "Procesando evento: user-left",
            .uiRemoveParticipantFromList x, .rtcHandleUserLeft x] } := by
  simp [deliver, lookupHandler, handlerTable, Message.userLeft, onUserLeft, andThen_emit,
    UIManager.removeParticipantFromList, andThen_ok, callOut, World.record]

theorem deliver_existingUsers (env : Env) (userIds : List JsVal) (w : World) :
    deliver env (.existingUsers userIds) w
      = forEach (existingUsersStep env) userIds
          (w.record (.consoleLog "Procesando evento: existing-users")) := by
  simp [deliver, lookupHandler, handlerTable, Message.existingUsers, onExistingUsers,
    andThen_emit]

theorem deliverAll_userJoined (env : Env) (L : List String) (w : World) :
    deliverAll env (L.map fun u => .userJoined (.str u)) w
      = { participantList := w.participantList ++ L.map (entryOf · false),
          localVideoElement := w.localVideoElement,
          trace := w.trace
            ++ L.flatMap fun u => .consoleLog "Procesando evento: user-joined" :: joinEffects u } := by
  induction L generalizing w with
  | nil => simp [deliverAll]
  | cons u L ih =>
    have h := ih (deliver env (.userJoined (.str u)) w).world
    simp only [deliverAll, List.map_cons, List.foldl_cons] at h ⊢
    rw [h, deliver_userJoined_world]
    simp [List.flatMap]

theorem domainEffects_joinEffects (L : List String) :
    domainEffects (L.flatMap joinEffects) = L.flatMap joinEffects := by
  induction L with
  | nil => rfl
  | cons u L ih =>
    simp only [domainEffects, List.flatMap_cons, List.filter_append] at ih ⊢
    rw [ih]; simp [joinEffects, Effect.isConsole]

theorem domainEffects_logged_joinEffects (L : List String) :
    domainEffects (L.flatMap fun u =>
        .consoleLog "Procesando evento: user-joined" :: joinEffects u)
      = L.flatMap joinEffects := by
  induction L with
  | nil => rfl
  | cons u L ih =>
    simp only [domainEffects, List.flatMap_cons, List.filter_append] at ih ⊢
    rw [ih]; simp [joinEffects, Effect.isConsole]

theorem andThen_of_none (o : Outcome) (k : World → Outcome) (h : o.thrown = none) :
    o.andThen k = k o.world := by
  simp [Outcome.andThen, h]

theorem andThen_of_some (o : Outcome) (k : World → Outcome) (e : JsError)
    (h : o.thrown = some e) : o.andThen k = o := by
  simp [Outcome.andThen, h]

theorem registerAll_trace (env : Env) (table : List (String × Handler)) (w : World) :
    ∃ es, (registerAll env table w).world.trace = w.trace ++ es
      ∧ Effect.wsConnect ∉ es := by
  induction table generalizing w with
  | nil => exact ⟨[], by simp [registerAll, Outcome.ok], by simp⟩
  | cons p table ih =>
    obtain ⟨t, h⟩ := p
    cases hthrow : env.throws w.trace (.wsOnMessage t) with
    | some e =>
      refine ⟨[.wsOnMessage t], ?_, by simp⟩
      simp [registerAll, callOut, Outcome.andThen, hthrow, World.record]
    | none =>
      obtain ⟨es, hes, hnot⟩ := ih (w.record (.wsOnMessage t))
      refine ⟨.wsOnMessage t :: es, ?_, by simp [hnot]⟩
      simp only [registerAll, callOut, Outcome.andThen, hthrow]
      rw [hes]; simp [World.record]

theorem registerAll_ok (env : Env) (table : List (String × Handler)) (w : World)
    (h : (registerAll env table w).thrown = none) :
    (registerAll env table w).world.trace
      = w.trace ++ table.map fun p => Effect.wsOnMessage p.1 := by
  induction table generalizing w with
  | nil => simp [registerAll, Outcome.ok]
  | cons p table ih =>
    obtain ⟨t, hd⟩ := p
    cases hthrow : env.throws w.trace (.wsOnMessage t) with
    | some e => simp [registerAll, callOut, Outcome.andThen, hthrow] at h
    | none =>
      simp only [registerAll, callOut, Outcome.andThen, hthrow] at h ⊢
      rw [ih _ h]; simp [World.record]

theorem setupLocalMedia_cases (env : Env) (w : World) :
    ((setupLocalMedia env w).thrown = none
      ∧ (setupLocalMedia env w).world.trace
          = w.trace ++ [.peerSetupLocalStream, .consoleLog "Stream local obtenido y listo."])
    ∨ ((∃ e, (setupLocalMedia env w).thrown = some e)
      ∧ ∃ es, (setupLocalMedia env w).world.trace = w.trace ++ es
          ∧ Effect.wsConnect ∉ es) := by
  unfold setupLocalMedia
  cases env.setupLocalStream with
  | error e =>
    right
    simp [setupLocalMediaCatch, emit, Outcome.andThen, Outcome.ok, World.record]
  | ok stream =>
    cases hv : w.localVideoElement with
    | none =>
      right
      simp [setupLocalMediaCatch, emit, Outcome.andThen, Outcome.ok, World.record, hv]
    | some v =>
      left
      simp [emit, Outcome.ok, World.record, hv]

/-! ## Dispatch table -/

/-- Counterexample to C1: the handler of `user-joined` makes no call on the
WebRTC manager when `userId` is the number 7, and none when `userId` is
missing: `addParticipantToList` throws before `handleUserJoined` is reached. -/
theorem user_joined_without_string_id :
    (rtcCalls (performed World.initial
        (deliver Env.benign (.userJoined (.num 7)) World.initial)) = []
      ∧ (deliver Env.benign (.userJoined (.num 7)) World.initial).thrown
          = some (.typeError "userId.substring is not a function"))
    ∧ (rtcCalls (performed World.initial
        (deliver Env.benign { type := "user-joined" } World.initial)) = []
      ∧ (deliver Env.benign { type := "user-joined" } World.initial).thrown
          = some (.typeError "userId.substring is not a function")) := by
  refine ⟨⟨rfl, rfl⟩, ⟨rfl, rfl⟩⟩

/-- Claim C1, amended: for `assign-id`, `user-left`, `offer`, `answer` and
`ice-candidate`, whatever the values of the fields, the handler registered for
the type makes exactly one call on the WebRTC manager, the one of the table,
with the fields of the message as arguments; the handler of `user-joined` does
so when `userId` is a string, and makes no call on the WebRTC manager when
`userId` is anything else. -/
theorem dispatch_table (env : Env) (w : World) (u : String) (x y : JsVal) :
    rtcCalls (performed w (deliver env (.assignId x) w)) = [.rtcSetMyUserId x]
    ∧ rtcCalls (performed w (deliver env (.userJoined (.str u)) w))
        = [.rtcHandleUserJoined (.str u)]
    ∧ rtcCalls (performed w (deliver env (.userJoined x) w))
        = (match x with
           | .str _ => [.rtcHandleUserJoined x]
           | _ => [])
    ∧ rtcCalls (performed w (deliver env (.userLeft x) w)) = [.rtcHandleUserLeft x]
    ∧ rtcCalls (performed w (deliver env (.mkOffer x y) w)) = [.rtcHandleOffer x y]
    ∧ rtcCalls (performed w (deliver env (.mkAnswer x y) w)) = [.rtcHandleAnswer x y]
    ∧ rtcCalls (performed w (deliver env (.iceCandidate x y) w))
        = [.rtcHandleIceCandidate x y] := by
  refine ⟨?_, ?_, ?_, ?_, ?_, ?_, ?_⟩
  case refine_3 =>
    cases x <;>
      simp [deliver, lookupHandler, handlerTable, Message.userJoined, onUserJoined,
        Outcome.andThen, emit, callOut, Outcome.ok, World.record, performed, rtcCalls,
        UIManager.addParticipantToList, shortId, Effect.isRtc]
  all_goals
    simp [deliver, lookupHandler, handlerTable, Message.assignId, Message.userJoined,
      Message.userLeft, Message.mkOffer, Message.mkAnswer, Message.iceCandidate,
      onAssignId, onUserJoined, onUserLeft, onOffer, onAnswer, onIceCandidate,
      Outcome.andThen, emit, callOut, Outcome.ok, World.record, performed, rtcCalls,
      UIManager.addParticipantToList, UIManager.removeParticipantFromList, shortId]
  all_goals (repeat' split) <;> simp [Effect.isRtc]

/-! ## existing-users against user-joined -/

/-- Counterexample to C2: with `L = [a, b, c]` and `handleUserJoined(b)`
throwing, the `existing-users` message stops after `b` and makes four calls,
while the three `user-joined` messages make six. -/
theorem existing_users_differs_under_failure :
    domainEffects (performed World.initial
        (deliver (Env.failingOn "b") (.existingUsers (["a", "b", "c"].map .str)) World.initial))
      = [.uiAddParticipantToList (.str "a") false, .rtcHandleUserJoined (.str "a"),
         .uiAddParticipantToList (.str "b") false, .rtcHandleUserJoined (.str "b")]
    ∧ domainEffects ((deliverAll (Env.failingOn "b")
        (["a", "b", "c"].map fun u => .userJoined (.str u)) World.initial).trace.drop
          World.initial.trace.length)
      = [.uiAddParticipantToList (.str "a") false, .rtcHandleUserJoined (.str "a"),
         .uiAddParticipantToList (.str "b") false, .rtcHandleUserJoined (.str "b"),
         .uiAddParticipantToList (.str "c") false, .rtcHandleUserJoined (.str "c")]
    ∧ domainEffects (performed World.initial
        (deliver (Env.failingOn "b") (.existingUsers (["a", "b", "c"].map .str)) World.initial))
      ≠ domainEffects ((deliverAll (Env.failingOn "b")
          (["a", "b", "c"].map fun u => .userJoined (.str u)) World.initial).trace.drop
            World.initial.trace.length) := by
  refine ⟨rfl, rfl, ?_⟩
  decide

/-- Claim C2, amended: when no `handleUserJoined` call on an identity of `L` throws,
handling `existing-users` with `userIds = L` makes the same participant-list
additions and WebRTC-manager calls, in the same order, as handling
`user-joined` for the elements of `L` one after another, and leaves the same
participant list; for `L = []` nothing is added and no call is made. -/
theorem existing_users_as_user_joined (env : Env) (w : World) (L : List String)
    (hok : ∀ tr u, u ∈ L → env.throws tr (.rtcHandleUserJoined (.str u)) = none) :
    domainEffects (performed w (deliver env (.existingUsers (L.map .str)) w))
        = domainEffects ((deliverAll env (L.map fun u => .userJoined (.str u)) w).trace.drop
            w.trace.length)
    ∧ domainEffects (performed w (deliver env (.existingUsers (L.map .str)) w))
        = L.flatMap joinEffects
    ∧ (deliver env (.existingUsers (L.map .str)) w).world.participantList
        = (deliverAll env (L.map fun u => .userJoined (.str u)) w).participantList
    ∧ (deliver env (.existingUsers (L.map .str)) w).thrown = none
    ∧ (L = [] →
        (deliver env (.existingUsers (L.map .str)) w).world.participantList = w.participantList
        ∧ domainEffects (performed w (deliver env (.existingUsers (L.map .str)) w)) = []) := by
  have hrun := forEach_str env L hok (w.record (.consoleLog "Procesando evento: existing-users"))
  have hall := deliverAll_userJoined env L w
  have hdom : domainEffects (performed w (deliver env (.existingUsers (L.map .str)) w))
      = L.flatMap joinEffects := by
    rw [deliver_existingUsers, hrun]
    simp only [performed, Outcome.ok, World.record, List.append_assoc, List.drop_left]
    simp only [domainEffects, List.filter_append]
    have := domainEffects_joinEffects L
    simp only [domainEffects] at this
    rw [this]; simp [Effect.isConsole]
  refine ⟨?_, hdom, ?_, ?_, ?_⟩
  · rw [hdom, hall]
    simp only [List.drop_left]
    exact (domainEffects_logged_joinEffects L).symm
  · rw [deliver_existingUsers, hrun, hall]; rfl
  · rw [deliver_existingUsers, hrun]; rfl
  · intro hL
    refine ⟨?_, ?_⟩
    · rw [deliver_existingUsers, hrun]; simp [hL, Outcome.ok, World.record]
    · rw [hdom, hL]; rfl

/-- Witness of C2: two identities in a benign environment. -/
theorem existing_users_as_user_joined_witness :
    domainEffects (performed World.initial
        (deliver Env.benign (.existingUsers (["a", "b"].map .str)) World.initial))
      = [.uiAddParticipantToList (.str "a") false, .rtcHandleUserJoined (.str "a"),
         .uiAddParticipantToList (.str "b") false, .rtcHandleUserJoined (.str "b")] :=
  (existing_users_as_user_joined Env.benign World.initial ["a", "b"] (fun _ _ _ => rfl)).2.1

/-! ## Initiation -/

/-- Counterexample to C4: for the identity `B` the reaction to
`user-joined {B}` and the reaction to `existing-users {[B]}` make the same
single WebRTC-manager call, `handleUserJoined(B)`. -/
theorem initiation_not_distinguished :
    rtcCalls (performed World.initial (deliver Env.benign (.userJoined (.str "B")) World.initial))
      = [.rtcHandleUserJoined (.str "B")]
    ∧ rtcCalls (performed World.initial
        (deliver Env.benign (.existingUsers [.str "B"]) World.initial))
      = [.rtcHandleUserJoined (.str "B")] := by
  constructor <;> rfl

/-- Claim C4, amended: for every identity `u` the reaction to `user-joined {u}`
and the reaction to `existing-users {[u]}` make the same WebRTC-manager call,
`handleUserJoined(u)`, exactly once, after the same participant-list addition;
the handlers do not tell the two ways of discovery apart. -/
theorem same_reaction_to_both_discoveries (env : Env) (w : World) (u : String) :
    rtcCalls (performed w (deliver env (.userJoined (.str u)) w))
      = [.rtcHandleUserJoined (.str u)]
    ∧ rtcCalls (performed w (deliver env (.existingUsers [.str u]) w))
      = [.rtcHandleUserJoined (.str u)]
    ∧ domainEffects (performed w (deliver env (.userJoined (.str u)) w))
      = domainEffects (performed w (deliver env (.existingUsers [.str u]) w))
    ∧ (deliver env (.userJoined (.str u)) w).world.participantList
      = w.participantList ++ [entryOf u false]
    ∧ (deliver env (.existingUsers [.str u]) w).world.participantList
      = w.participantList ++ [entryOf u false] := by
  refine ⟨?_, ?_, ?_, ?_, ?_⟩
  · rw [performed, deliver_userJoined_world]
    simp [rtcCalls, joinEffects, Effect.isRtc]
  · rw [deliver_existingUsers]
    simp [forEach, existingUsersStep_str, Outcome.andThen, performed, World.record, rtcCalls,
      joinEffects]
    split <;> simp [Outcome.ok, Effect.isRtc]
  · rw [performed, deliver_userJoined_world, deliver_existingUsers]
    simp [forEach, existingUsersStep_str, Outcome.andThen, performed, World.record,
      domainEffects, joinEffects]
    split <;> simp [Outcome.ok, Effect.isConsole]
  · rw [deliver_userJoined_world]
  · rw [deliver_existingUsers]
    simp only [forEach, existingUsersStep_str, Outcome.andThen, World.record]
    split <;> rfl

/-! ## A failure inside existing-users -/

/-- Counterexample to C5: with `userIds = [a, b, c]` and `handleUserJoined(b)`
throwing, `c` is neither added to the participant list nor passed to
`handleUserJoined`; and with `userIds = [7, b]` the addition of `7` throws and
`b` is neither added nor passed. -/
theorem existing_users_not_independent :
    ((deliver (Env.failingOn "b") (.existingUsers [.str "a", .str "b", .str "c"])
        World.initial)
      = { world := { participantList := [entryOf "a" false, entryOf "b" false],
                     localVideoElement := World.initial.localVideoElement,
                     trace := [.consoleLog "Procesando evento: existing-users",
                       .uiAddParticipantToList (.str "a") false, .rtcHandleUserJoined (.str "a"),
                       .uiAddParticipantToList (.str "b") false, .rtcHandleUserJoined (.str "b")] },
          thrown := some (.other "handleUserJoined failed") }
      ∧ entryOf "c" false ∉ (deliver (Env.failingOn "b")
          (.existingUsers [.str "a", .str "b", .str "c"]) World.initial).world.participantList
      ∧ Effect.rtcHandleUserJoined (.str "c") ∉ (deliver (Env.failingOn "b")
          (.existingUsers [.str "a", .str "b", .str "c"]) World.initial).world.trace)
    ∧ ((deliver Env.benign (.existingUsers [.num 7, .str "b"]) World.initial)
      = { world := { participantList := [],
                     localVideoElement := World.initial.localVideoElement,
                     trace := [.consoleLog "Procesando evento: existing-users",
                       .uiAddParticipantToList (.num 7) false] },
          thrown := some (.typeError "userId.substring is not a function") }
      ∧ entryOf "b" false ∉ (deliver Env.benign (.existingUsers [.num 7, .str "b"])
          World.initial).world.participantList
      ∧ Effect.rtcHandleUserJoined (.str "b") ∉ (deliver Env.benign
          (.existingUsers [.num 7, .str "b"]) World.initial).world.trace) := by
  refine ⟨⟨rfl, ?_, ?_⟩, ⟨rfl, ?_, ?_⟩⟩ <;> decide

/-- Claim C5, amended: when the handling of the element at some position of
`userIds` fails, the identities before it have been added to the participant
list and passed to `handleUserJoined`, the exception leaves the handler, and
the elements after that position are neither added nor passed on: the outcome
is that of the list cut after the failing element. -/
theorem existing_users_stops_at_failure (env : Env) (w : World) (pre : List String)
    (x : JsVal) (post : List JsVal) (e : JsError)
    (hpre : ∀ tr u, u ∈ pre → env.throws tr (.rtcHandleUserJoined (.str u)) = none)
    (hx : (existingUsersStep env x
            (deliver env (.existingUsers (pre.map .str)) w).world).thrown = some e) :
    (deliver env (.existingUsers (pre.map .str ++ x :: post)) w).thrown = some e
    ∧ deliver env (.existingUsers (pre.map .str ++ x :: post)) w
        = deliver env (.existingUsers (pre.map .str ++ [x])) w
    ∧ (deliver env (.existingUsers (pre.map .str ++ x :: post)) w).world.participantList
        = w.participantList ++ pre.map (entryOf · false) ++ addedBy x
    ∧ domainEffects (performed w (deliver env (.existingUsers (pre.map .str ++ x :: post)) w))
        = pre.flatMap joinEffects ++ attempted x := by
  have hrun := forEach_str env pre hpre (w.record (.consoleLog "Procesando evento: existing-users"))
  rw [deliver_existingUsers] at hx
  have hcut : ∀ rest, deliver env (.existingUsers (pre.map .str ++ x :: rest)) w
      = existingUsersStep env x
          (forEach (existingUsersStep env) (pre.map .str)
            (w.record (.consoleLog "Procesando evento: existing-users"))).world := by
    intro rest
    rw [deliver_existingUsers]
    exact forEach_append_failing _ _ _ _ _ e (by rw [hrun]; rfl) hx
  have hdom := domainEffects_joinEffects pre
  rw [hcut post, hcut []]
  refine ⟨hx, rfl, ?_, ?_⟩
  · rw [hrun]
    cases x <;>
      simp [existingUsersStep, UIManager.addParticipantToList, shortId, Outcome.andThen,
        Outcome.ok, callOut, World.record, addedBy, entryOf]
  · rw [hrun]
    simp only [domainEffects] at hdom
    cases x <;>
      simp [existingUsersStep, UIManager.addParticipantToList, shortId, Outcome.andThen,
        Outcome.ok, callOut, World.record, attempted, performed, domainEffects,
        List.filter_append, hdom, joinEffects, Effect.isConsole] <;>
      (intro a x _ h; rcases h with rfl | rfl <;> rfl)

/-- Witness of C5 amended: `handleUserJoined(b)` throws between `a` and `c`. -/
theorem existing_users_stops_at_failure_witness :
    (deliver (Env.failingOn "b") (.existingUsers (["a"].map .str ++ .str "b" :: [.str "c"]))
        World.initial).world.participantList
      = World.initial.participantList ++ ["a"].map (entryOf · false) ++ addedBy (.str "b") :=
  (existing_users_stops_at_failure (Env.failingOn "b") World.initial ["a"] (.str "b")
    [.str "c"] (.other "handleUserJoined failed") (by simp [Env.failingOn]) (by rfl)).2.2.1

/-! ## assign-id -/

/-- Counterexample to C6: after `assign-id {a}` the participant list has one
local entry, and handling a further `assign-id {b}` adds a second one. -/
theorem second_assign_id_takes_effect :
    (deliverAll Env.benign [.assignId (.str "a")] World.initial).participantList
      = [entryOf "a" true]
    ∧ localEntries (deliverAll Env.benign [.assignId (.str "a")]
        World.initial).participantList = 1
    ∧ (deliverAll Env.benign [.assignId (.str "a"), .assignId (.str "b")]
        World.initial).participantList
      = [entryOf "a" true, entryOf "b" true]
    ∧ localEntries (deliverAll Env.benign [.assignId (.str "a"), .assignId (.str "b")]
        World.initial).participantList = 2 := by
  refine ⟨?_, ?_, ?_, ?_⟩ <;> rfl

/-- Claim C6, amended: every `assign-id {u}` that is handled, the first as any
later one, passes `u` to `setMyUserId`, as its only call on the WebRTC manager,
and, when that call returns, appends one more local entry for `u` to the
participant list. -/
theorem every_assign_id_takes_effect (env : Env) (w : World) (u : String)
    (hset : ∀ tr, env.throws tr (.rtcSetMyUserId (.str u)) = none) :
    rtcCalls (performed w (deliver env (.assignId (.str u)) w)) = [.rtcSetMyUserId (.str u)]
    ∧ (deliver env (.assignId (.str u)) w).world.participantList
        = w.participantList ++ [entryOf u true]
    ∧ localEntries (deliver env (.assignId (.str u)) w).world.participantList
        = localEntries w.participantList + 1 := by
  have hw : (deliver env (.assignId (.str u)) w).world
      = { participantList := w.participantList ++ [entryOf u true],
          localVideoElement := w.localVideoElement,
          trace := w.trace ++ [.consoleLog "Evento recibido: assign-id",
            .rtcSetMyUserId (.str u), .consoleLog ("ID de usuario asignado: " ++ u),
            .uiAddParticipantToList (.str u) true] } := by
    simp [deliver, lookupHandler, handlerTable, Message.assignId, onAssignId, emit,
      addParticipantToList_str, callOut, hset, Outcome.andThen, World.record, Outcome.ok,
      JsVal.toStr]
  rw [performed, hw]
  refine ⟨?_, rfl, ?_⟩
  · simp [rtcCalls, Effect.isRtc]
  · simp [localEntries, List.countP_append, Li.isLocalEntry, entryOf, participantLabel]

/-- Witness of C6 amended: a second `assign-id` in a benign environment. -/
theorem every_assign_id_takes_effect_witness :
    localEntries (deliver Env.benign (.assignId (.str "b"))
        (deliverAll Env.benign [.assignId (.str "a")] World.initial)).world.participantList
      = localEntries (deliverAll Env.benign [.assignId (.str "a")]
          World.initial).participantList + 1 :=
  (every_assign_id_takes_effect Env.benign
    (deliverAll Env.benign [.assignId (.str "a")] World.initial) "b" (fun _ => rfl)).2.2

/-! ## Participant-list calls per message -/

/-- Claim C7: handling `user-left {u}` calls `removeParticipantFromList(u)` once
and `handleUserLeft(u)` once; handling `user-joined {u}` calls
`addParticipantToList(u)` once, with `isLocal` false; handling `assign-id {u}`,
once `setMyUserId(u)` has returned, calls `addParticipantToList(u, true)` once,
after `setMyUserId(u)`; handling `offer`, `answer` or `ice-candidate` makes no
participant-list call. -/
theorem presentation_calls (env : Env) (w : World) (u : JsVal) (x y : JsVal)
    (hset : ∀ tr, env.throws tr (.rtcSetMyUserId u) = none) :
    uiCalls (performed w (deliver env (.userLeft u) w)) = [.uiRemoveParticipantFromList u]
    ∧ rtcCalls (performed w (deliver env (.userLeft u) w)) = [.rtcHandleUserLeft u]
    ∧ uiCalls (performed w (deliver env (.userJoined u) w))
        = [.uiAddParticipantToList u false]
    ∧ domainEffects (performed w (deliver env (.assignId u) w))
        = [.rtcSetMyUserId u, .uiAddParticipantToList u true]
    ∧ uiCalls (performed w (deliver env (.mkOffer x y) w)) = []
    ∧ uiCalls (performed w (deliver env (.mkAnswer x y) w)) = []
    ∧ uiCalls (performed w (deliver env (.iceCandidate x y) w)) = [] := by
  refine ⟨?_, ?_, ?_, ?_, ?_, ?_, ?_⟩ <;>
    simp [deliver, lookupHandler, handlerTable, Message.assignId, Message.userJoined,
      Message.userLeft, Message.mkOffer, Message.mkAnswer, Message.iceCandidate,
      onAssignId, onUserJoined, onUserLeft, onOffer, onAnswer, onIceCandidate,
      Outcome.andThen, emit, callOut, Outcome.ok, World.record, performed, rtcCalls, uiCalls,
      domainEffects, hset,
      UIManager.addParticipantToList, UIManager.removeParticipantFromList, shortId]
  all_goals (repeat' split) <;> simp [Effect.isRtc, Effect.isUi, Effect.isConsole]

/-- Witness of C7: the identity `B` in a benign environment. -/
theorem presentation_calls_witness :
    uiCalls (performed World.initial (deliver Env.benign (.userLeft (.str "B")) World.initial))
      = [.uiRemoveParticipantFromList (.str "B")] :=
  (presentation_calls Env.benign World.initial (.str "B") .null .null (fun _ => rfl)).1

/-! ## Start -/

/-- Claim C3: when the acquisition of the local stream is attempted and fails
with `e`, `start` fails with `e`; the acquisition is attempted once, no
WebSocket handler is registered and `wsManager.connect` is not called. -/
theorem start_fails_with_media_error (env : Env) (w : World) (e : JsError)
    (hcoupled : env.throws w.trace .peerSetRtcManager = none)
    (hmedia : env.setupLocalStream = .error e) :
    (start env w).thrown = some e
    ∧ (performed w (start env w)).count .peerSetupLocalStream = 1
    ∧ (∀ t, Effect.wsOnMessage t ∉ performed w (start env w))
    ∧ Effect.wsConnect ∉ performed w (start env w) := by
  simp [start, callOut, hcoupled, Outcome.andThen, World.record, setupLocalMedia, hmedia,
    setupLocalMediaCatch, emit, Outcome.ok, performed]

/-- Witness of C3: the camera is refused. -/
theorem start_fails_with_media_error_witness :
    (start (Env.refusing (.other "NotAllowedError")) World.initial).thrown
      = some (.other "NotAllowedError") :=
  (start_fails_with_media_error (Env.refusing (.other "NotAllowedError")) World.initial
    (.other "NotAllowedError") rfl rfl).1

/-- Claim C8: a `start` that succeeds has acquired the local stream, then
registered the seven handlers in source order, then called `connect`, once;
and in every run in which `connect` is called, it is called once, as the last
call, after the acquisition and the seven registrations. -/
theorem start_order (env : Env) (w : World) :
    ((start env w).thrown = none → performed w (start env w) = startScript)
    ∧ (Effect.wsConnect ∈ performed w (start env w) → performed w (start env w) = startScript)
    ∧ (performed w (start env w)).count .wsConnect ≤ 1 := by
  have key : performed w (start env w) = startScript
      ∨ ((start env w).thrown ≠ none ∧ Effect.wsConnect ∉ performed w (start env w)) := by
    unfold start performed
    cases h1 : env.throws w.trace .peerSetRtcManager with
    | some e1 =>
      right
      simp [callOut, Outcome.andThen, h1, World.record]
    | none =>
      rw [andThen_of_none _ _ (by simp [callOut, h1])]
      rcases setupLocalMedia_cases env (callOut env .peerSetRtcManager w).world with
        ⟨h2, h2t⟩ | ⟨⟨e2, h2⟩, es, h2t, hnot⟩
      · rw [andThen_of_none _ _ h2]
        cases h3 : (registerWebSocketHandlers env
            (setupLocalMedia env (callOut env .peerSetRtcManager w).world).world).thrown with
        | none =>
          left
          rw [andThen_of_none _ _ h3]
          have h3t := registerAll_ok env handlerTable _ h3
          simp only [registerWebSocketHandlers, callOut, World.record] at h3t h2t ⊢
          rw [h3t, h2t]
          simp [startScript, registrations, handlerTable]
        | some e3 =>
          right
          rw [andThen_of_some _ _ e3 h3]
          obtain ⟨es, hes, hnot⟩ := registerAll_trace env handlerTable
            (setupLocalMedia env (callOut env .peerSetRtcManager w).world).world
          simp only [registerWebSocketHandlers, callOut, World.record] at h3 hes h2t ⊢
          rw [hes, h2t]
          simp [h3, hnot]
      · right
        rw [andThen_of_some _ _ e2 h2]
        simp only [callOut, World.record] at h2 h2t ⊢
        rw [h2t]
        simp [h2, hnot]
  rcases key with h | ⟨hthrown, hnot⟩
  · refine ⟨fun _ => h, fun _ => h, ?_⟩
    rw [h]; decide
  · refine ⟨fun h => absurd h hthrown, fun h => absurd h hnot, ?_⟩
    rw [List.count_eq_zero_of_not_mem hnot]; exact Nat.zero_le _

/-- Witness of C8: a benign environment runs the whole script. -/
theorem start_order_witness :
    performed World.initial (start Env.benign World.initial) = startScript :=
  (start_order Env.benign World.initial).1 rfl

/-! ## Mute button -/

theorem onMuteClick_stream (s : ScriptState) (tracks : List Track)
    (h : s.localStream = some tracks) :
    onMuteClick s = { isMuted := !s.isMuted,
                      localStream := some (setAudioEnabled (!s.isMuted) tracks),
                      buttonText := labelFor (!s.isMuted) } := by
  simp [onMuteClick, h, labelFor]

theorem clicks_succ (n : Nat) (s : ScriptState) :
    clicks (n + 1) s = onMuteClick (clicks n s) := by
  induction n generalizing s with
  | zero => rfl
  | succ n ih => rw [clicks, ih (onMuteClick s)]; rfl

theorem clicks_stream (n : Nat) (s : ScriptState) (tracks : List Track)
    (h : s.localStream = some tracks) : ∃ tracks', (clicks n s).localStream = some tracks' := by
  induction n with
  | zero => exact ⟨tracks, h⟩
  | succ n ih =>
    obtain ⟨t, ht⟩ := ih
    rw [clicks_succ, onMuteClick_stream _ t ht]
    exact ⟨_, rfl⟩

theorem setAudioEnabled_kind (b : Bool) (tracks : List Track) :
    (setAudioEnabled b tracks).map Track.kind = tracks.map Track.kind := by
  induction tracks with
  | nil => rfl
  | cons t tracks ih =>
    simp only [setAudioEnabled, List.map_cons, List.map_map] at ih ⊢
    rw [ih]
    by_cases h : t.kind = .audio <;> simp [h]

theorem setAudioEnabled_audio (b : Bool) (tracks : List Track) :
    ∀ t ∈ setAudioEnabled b tracks, t.kind = .audio → t.enabled = !b := by
  intro t ht haudio
  simp only [setAudioEnabled, List.mem_map] at ht
  obtain ⟨t0, _, rfl⟩ := ht
  by_cases h : t0.kind = .audio
  · simp [h]
  · simp [h] at haudio

theorem setAudioEnabled_video (b : Bool) (tracks : List Track) :
    (setAudioEnabled b tracks).filter (fun t => t.kind = .video)
      = tracks.filter (fun t => t.kind = .video) := by
  induction tracks with
  | nil => rfl
  | cons t tracks ih =>
    simp only [setAudioEnabled, List.map_cons] at ih ⊢
    by_cases h : t.kind = .audio
    · simp [h, List.filter_cons, ih]
    · simp [h, List.filter_cons, ih]

theorem labelFor_unmute (b : Bool) : labelFor b = unmuteLabel ↔ b = true := by
  cases b
  · simp only [labelFor]; decide
  · simp [labelFor]

theorem labelFor_mute (b : Bool) : labelFor b = muteLabel ↔ b = false := by
  cases b
  · simp [labelFor]
  · simp only [labelFor]; decide

theorem clicks_none (s : ScriptState) (h : s.localStream = none) : ∀ n, clicks n s = s := by
  intro n
  induction n with
  | zero => rfl
  | succ n ih => rw [clicks_succ, ih]; simp [onMuteClick, h]

/-- Claim C9: a click while there is no local stream changes nothing; a click
while there is one flips `isMuted`, leaves every audio track with
`enabled = !isMuted`, leaves the video tracks as they were, and shows the
unmute label exactly when `isMuted` is true; over any sequence of clicks the
button and the audio tracks agree with `isMuted` after every click, and two
consecutive clicks restore `isMuted` and the button text. -/
theorem mute_button (s : ScriptState) :
    (s.localStream = none → ∀ n, clicks n s = s)
    ∧ (∀ tracks, s.localStream = some tracks →
        (onMuteClick s).isMuted = (!s.isMuted)
        ∧ (∃ tracks', (onMuteClick s).localStream = some tracks'
            ∧ tracks'.map Track.kind = tracks.map Track.kind
            ∧ (∀ t ∈ tracks', t.kind = .audio → t.enabled = !(onMuteClick s).isMuted)
            ∧ tracks'.filter (fun t => t.kind = .video)
                = tracks.filter (fun t => t.kind = .video))
        ∧ ((onMuteClick s).buttonText = unmuteLabel ↔ (onMuteClick s).isMuted = true)
        ∧ ((onMuteClick s).buttonText = muteLabel ↔ (onMuteClick s).isMuted = false)
        ∧ (∀ n, MuteInvariant (clicks (n + 1) s))
        ∧ (∀ n, (clicks (n + 2) s).isMuted = (clicks n s).isMuted)
        ∧ (∀ n, (clicks (n + 3) s).buttonText = (clicks (n + 1) s).buttonText)
        ∧ (s.buttonText = labelFor s.isMuted →
            (onMuteClick (onMuteClick s)).buttonText = s.buttonText)) := by
  refine ⟨clicks_none s, ?_⟩
  intro tracks h
  have hstep : ∀ n, ∃ tr, (clicks n s).localStream = some tr
      ∧ clicks (n + 1) s = { isMuted := !(clicks n s).isMuted,
                             localStream := some (setAudioEnabled (!(clicks n s).isMuted) tr),
                             buttonText := labelFor (!(clicks n s).isMuted) } := by
    intro n
    obtain ⟨tr, htr⟩ := clicks_stream n s tracks h
    exact ⟨tr, htr, by rw [clicks_succ, onMuteClick_stream _ tr htr]⟩
  have hmuted : ∀ n, (clicks (n + 1) s).isMuted = !(clicks n s).isMuted := by
    intro n
    obtain ⟨tr, _, hn⟩ := hstep n
    rw [hn]
  have htext : ∀ n, (clicks (n + 1) s).buttonText = labelFor (clicks (n + 1) s).isMuted := by
    intro n
    obtain ⟨tr, _, hn⟩ := hstep n
    rw [hn]
  rw [onMuteClick_stream s tracks h]
  refine ⟨rfl, ⟨_, rfl, setAudioEnabled_kind _ _, setAudioEnabled_audio _ _,
    setAudioEnabled_video _ _⟩, labelFor_unmute _, labelFor_mute _, ?_, ?_, ?_, ?_⟩
  · intro n
    obtain ⟨tr, _, hn⟩ := hstep n
    rw [hn]
    refine ⟨rfl, ?_⟩
    intro tracks' htracks'
    simp only [Option.some.injEq] at htracks'
    subst htracks'
    exact setAudioEnabled_audio _ _
  · intro n
    rw [hmuted (n + 1), hmuted n, Bool.not_not]
  · intro n
    rw [htext (n + 2), htext n, hmuted (n + 2), hmuted (n + 1), Bool.not_not]
  · intro hs
    rw [onMuteClick_stream _ _ rfl, hs]
    simp

/-- Witness of C9: one click on a state with an audio and a video track. -/
theorem mute_button_witness :
    (onMuteClick ScriptState.sample).isMuted = (!ScriptState.sample.isMuted) :=
  ((mute_button ScriptState.sample).2 _ rfl).1

/-! ## Participant list and membership -/

theorem participantId_str_inj (u v : String)
    (h : participantId (.str u) = participantId (.str v)) : u = v := by
  simp only [participantId, JsVal.toStr] at h
  have hd := congrArg String.data h
  simp only [String.data_append] at hd
  exact String.ext (List.append_cancel_left hd)

theorem entryOf_injective : Function.Injective (fun u => (entryOf u false).id) := by
  intro u v h
  exact participantId_str_inj u v h

theorem removeFirstById_entries (v : String) (r : List String) :
    removeFirstById (participantId (.str v)) (r.map (entryOf · false))
      = (r.erase v).map (entryOf · false) := by
  induction r with
  | nil => rfl
  | cons a r ih =>
    by_cases hav : a = v
    · subst hav
      simp [removeFirstById, entryOf]
    · have hne : ¬ participantId (.str a) = participantId (.str v) :=
        fun h => hav (participantId_str_inj a v h)
      simp only [List.map_cons, removeFirstById, entryOf, hne, if_false] at ih ⊢
      rw [ih, List.erase_cons_tail (by simpa using hav)]
      simp [entryOf]

theorem deliverAll_append (env : Env) (l : List Message) (m : Message) (w : World) :
    deliverAll env (l ++ [m]) w = (deliver env m (deliverAll env l w)).world := by
  simp [deliverAll, List.foldl_append]

theorem deliverAll_membership (env : Env) (w : World) (hw : w.participantList = [])
    (events : List Membership) :
    (deliverAll env (events.map Membership.toMessage) w).participantList
      = (roster events).map (entryOf · false) := by
  induction events using List.reverseRecOn with
  | nil => simpa [deliverAll, roster] using hw
  | append_singleton events ev ih =>
    rw [List.map_append, List.map_singleton, deliverAll_append]
    cases ev with
    | joined v =>
      rw [Membership.toMessage, deliver_userJoined_world]
      simp [ih, roster, List.foldl_append, rosterStep]
    | left v =>
      rw [Membership.toMessage, deliver_userLeft_world]
      simp only [ih, removeFirstById_entries]
      simp [roster, List.foldl_append, rosterStep]

theorem count_roster (u : String) (events : List Membership) :
    (roster events).count u = openJoins u events := by
  induction events using List.reverseRecOn with
  | nil => rfl
  | append_singleton events ev ih =>
    simp only [roster, openJoins, List.foldl_append, List.foldl_cons, List.foldl_nil] at ih ⊢
    cases ev with
    | joined v =>
      by_cases h : v = u
      · subst h; simp [rosterStep, joinStep, List.count_append, ih]
      · simp [rosterStep, joinStep, List.count_append, ih, h, List.count_cons]
    | left v =>
      by_cases h : v = u
      · subst h; simp [rosterStep, joinStep, ih]
      · have hne : u ≠ v := fun e => h e.symm
        simp [rosterStep, joinStep, ih, h, List.count_erase_of_ne hne]

theorem NoRejoin.init (events : List Membership) (ev : Membership)
    (h : NoRejoin (events ++ [ev])) : NoRejoin events := by
  intro before v after heq
  exact h before v (after ++ [ev]) (by rw [heq]; simp)

theorem nodup_roster (events : List Membership) (h : NoRejoin events) :
    (roster events).Nodup := by
  induction events using List.reverseRecOn with
  | nil => simp [roster]
  | append_singleton events ev ih =>
    have hprev := ih (NoRejoin.init events ev h)
    cases ev with
    | joined v =>
      have hzero : openJoins v events = 0 := h events v [] rfl
      have hnot : v ∉ roster events := by
        rw [← List.count_eq_zero, count_roster]; exact hzero
      simp only [roster, List.foldl_append, List.foldl_cons, List.foldl_nil, rosterStep]
      exact List.nodup_append.mpr ⟨hprev, by simp, by
        intro a ha hb
        simp only [List.mem_singleton] at hb
        subst hb
        exact hnot ha⟩
    | left v =>
      simp only [roster, List.foldl_append, List.foldl_cons, List.foldl_nil, rosterStep]
      exact hprev.erase v

/-- Claim C10: starting from an empty participant list, after any sequence of
`user-joined` and `user-left` messages the number of entries with id
`participant-u` is the number of `user-joined {u}` not matched by a later
`user-left {u}`; and when no identity is joined while it is already joined,
the list holds exactly the currently joined identities, once each, in join
order. -/
theorem participant_list_tracks_membership (env : Env) (w : World)
    (hw : w.participantList = []) (events : List Membership) :
    (∀ u, ((deliverAll env (events.map Membership.toMessage) w).participantList.map
        Li.id).count (participantId (.str u)) = openJoins u events)
    ∧ (NoRejoin events →
        (deliverAll env (events.map Membership.toMessage) w).participantList
          = (roster events).map (entryOf · false)
        ∧ (roster events).Nodup
        ∧ ∀ u, u ∈ roster events ↔ 0 < openJoins u events) := by
  have hlist := deliverAll_membership env w hw events
  refine ⟨?_, ?_⟩
  · intro u
    rw [hlist, List.map_map]
    have := List.count_map_of_injective (roster events) (fun u => (entryOf u false).id)
      entryOf_injective u
    simpa [entryOf, count_roster] using this
  · intro hno
    refine ⟨hlist, nodup_roster events hno, ?_⟩
    intro u
    rw [← count_roster, List.count_pos_iff]

/-- Witness of C10: `a` joins, `b` joins, `a` leaves. -/
theorem participant_list_tracks_membership_witness :
    (deliverAll Env.benign
        ([Membership.joined "a", .joined "b", .left "a"].map Membership.toMessage)
        World.initial).participantList
      = (roster [Membership.joined "a", .joined "b", .left "a"]).map (entryOf · false) :=
  ((participant_list_tracks_membership Env.benign World.initial rfl
    [.joined "a", .joined "b", .left "a"]).2 (by
      intro before v after heq
      rcases before with _ | ⟨x, _ | ⟨y, _ | ⟨z, rest⟩⟩⟩
      · simp only [List.nil_append, List.cons.injEq, Membership.joined.injEq] at heq
        rw [← heq.1]; rfl
      · simp only [List.cons_append, List.nil_append, List.cons.injEq,
          Membership.joined.injEq] at heq
        rw [← heq.1, ← heq.2.1]; rfl
      · simp at heq
      · simp at heq)).1

end WebrtcClient
